import Mathlib

/-!
Verification of the DragIT_Buddy project-board core (src/src/app.ts).

The embedding models the TypeScript source shallowly:
- `ProjectStatus`, `Project` mirror the enum and class of the source.
- `ProjectState` is the store: an ordered list of projects and the ordered
  list of registered listener callbacks.  Listener callbacks are opaque to the
  store, so they are modelled by identifiers (`Nat`); a notification round is
  the list of `(listener, snapshot)` calls the store performs, in order.
- `Math.random().toString()` is a nondeterministic external source, so the
  generated identifier string is an explicit argument (`rnd`) of `addProject`.
- JS numbers are modelled by `Int` (all numeric literals in scope are small
  integers; no float-specific behaviour is exercised by the claims).
-/

namespace DragIT

/-- `enum ProjectStatus { Active, Finished }` from the source. -/
inductive ProjectStatus where
  | Active
  | Finished
deriving DecidableEq, Repr

/-- `class Project` from the source: id, title, description, people, status. -/
structure Project where
  id : String
  title : String
  description : String
  people : Int
  status : ProjectStatus
deriving DecidableEq, Repr

/-- A listener callback (`Listener<Project>`); opaque to the store, modelled
by an identifier. -/
abbrev ListenerId := Nat

/-- `class ProjectState extends State<Project>`: the owned project sequence and
the registered listeners (from `State<T>`). -/
structure ProjectState where
  projects : List Project := []
  listeners : List ListenerId := []
deriving DecidableEq, Repr

/-- `State.addListener`: `this.listeners.push(listenerFunction)` —
unconditional append, no duplicate detection. -/
def addListener (s : ProjectState) (listenerFunction : ListenerId) : ProjectState :=
  { s with listeners := s.listeners ++ [listenerFunction] }

/-- `ProjectState.addProject`: builds the new project with the generated id
`rnd` (= `Math.random().toString()`) and status `Active`, pushes it, then
calls each registered listener with `this.projects.slice()`.  Returns the new
store state and the notification round: the `(listener, snapshot)` calls made,
in listener order. -/
def addProject (s : ProjectState) (rnd title description : String)
    (numOfPeople : Int) : ProjectState × List (ListenerId × List Project) :=
  let newProject : Project :=
    { id := rnd, title := title, description := description,
      people := numOfPeople, status := ProjectStatus.Active }
  let projects := s.projects ++ [newProject]
  ({ s with projects := projects },
   s.listeners.map (fun listenerFunction => (listenerFunction, projects)))

/-- `ProjectState.getInstance` acting on the static `instance` cell
(`Option ProjectState`): returns the instance and the cell contents after the
call.  `new ProjectState()` yields the empty store. -/
def getInstance : Option ProjectState → ProjectState × Option ProjectState
  | some instanceVal => (instanceVal, some instanceVal)
  | none => ({}, some ({} : ProjectState))

/-- `ProjectLists.dropHandler`: reads the transferred "text/plain" payload and
logs it; no state mutation.  Returns the (unchanged) store and the observed
identifier. -/
def dropHandler (s : ProjectState) (transferred : String) :
    ProjectState × String :=
  (s, transferred)

/-! ## Validator (`interface Validation`, `function validateForm`) -/

/-- The `string | number` type of `Validation.value`. -/
inductive Value where
  | str : String → Value
  | num : Int → Value
deriving DecidableEq, Repr

/-- JS `value.toString()` on a `string | number` value. -/
def jsToString : Value → String
  | Value.str s => s
  | Value.num n => toString n

/-- JS `.trim()`: drop leading and trailing whitespace (structural, over the
string's characters). -/
def jsTrim (s : String) : String :=
  ⟨((s.data.dropWhile Char.isWhitespace).reverse.dropWhile
      Char.isWhitespace).reverse⟩

/-- `interface Validation` from the source; absent optional constraints are
`none`/`false` (JS `undefined` is falsy and `!= null`-negative). -/
structure Validation where
  value : Value
  required : Bool := false
  minLength : Option Int := none
  maxLength : Option Int := none
  min : Option Int := none
  max : Option Int := none

/-- `function validateForm(validationInput)` from the source, check by check:
required: trimmed string form non-empty; minLength and maxLength: BOTH use
strict `value.length > bound` (the source's maxLength branch repeats the `>`
comparison); min: `value > min`; max: `value < max`. -/
def validateForm (validationInput : Validation) : Bool :=
  let isValid := true
  let isValid :=
    if validationInput.required then
      isValid && ((jsTrim (jsToString validationInput.value)).length != 0)
    else isValid
  let isValid :=
    match validationInput.minLength, validationInput.value with
    | some bound, Value.str s => isValid && decide ((s.length : Int) > bound)
    | _, _ => isValid
  let isValid :=
    match validationInput.maxLength, validationInput.value with
    | some bound, Value.str s => isValid && decide ((s.length : Int) > bound)
    | _, _ => isValid
  let isValid :=
    match validationInput.min, validationInput.value with
    | some bound, Value.num n => isValid && decide (n > bound)
    | _, _ => isValid
  let isValid :=
    match validationInput.max, validationInput.value with
    | some bound, Value.num n => isValid && decide (n < bound)
    | _, _ => isValid
  isValid

/-! ## Drag start (`ProjectItem.dragStartHandler`) -/

/-- The drag event's `dataTransfer` object: typed payload entries plus the
`effectAllowed` flag. -/
structure DataTransfer where
  entries : List (String × String) := []
  effectAllowed : String := "uninitialized"
deriving DecidableEq, Repr

/-- `dataTransfer.setData(format, payload)`: replaces any entry of the same
format. -/
def setData (dt : DataTransfer) (format payload : String) : DataTransfer :=
  { dt with entries :=
      (format, payload) :: dt.entries.filter (fun e => e.1 ≠ format) }

/-- `dataTransfer.getData(format)`: the stored payload for the format, or ""
when absent. -/
def getData (dt : DataTransfer) (format : String) : String :=
  ((dt.entries.find? (fun e => e.1 == format)).map Prod.snd).getD ""

/-- `ProjectItem.dragStartHandler`: `setData("text/plain", this.project.id)`
then `effectAllowed = "move"`. -/
def dragStartHandler (project : Project) (dt : DataTransfer) : DataTransfer :=
  let dt := setData dt "text/plain" project.id
  { dt with effectAllowed := "move" }

/-! ## Input form (`ProjectInput`) -/

/-- The three form fields' raw values (`titleInputElement.value`, etc.). -/
structure FormFields where
  title : String
  description : String
  people : String
deriving DecidableEq, Repr

/-- `ProjectInput.clearInput`: sets all three field values to `""`. -/
def clearInput (_ : FormFields) : FormFields :=
  { title := "", description := "", people := "" }

/-- `ProjectInput.fetchUserInput`: builds the three validation rules
(title: required; description: required + minLength 5; people: required +
min 0 + max 5) and returns the tuple when all pass, `none` (after raising the
alert) otherwise.  `peopleNum` is the numeric value `+enterPeople`; the JS
string-to-number coercion belongs to the excluded form-value extraction layer,
so it is taken as an argument. -/
def fetchUserInput (f : FormFields) (peopleNum : Int) :
    Option (String × String × Int) :=
  let titleValidationInput : Validation :=
    { value := Value.str f.title, required := true }
  let descriptionValidationInput : Validation :=
    { value := Value.str f.description, required := true, minLength := some 5 }
  let peopleValidationInput : Validation :=
    { value := Value.num peopleNum, required := true, min := some 0,
      max := some 5 }
  if !(validateForm titleValidationInput)
      || !(validateForm descriptionValidationInput)
      || !(validateForm peopleValidationInput) then
    none
  else
    some (f.title, f.description, peopleNum)

/-- Everything a form submission produces: the store afterwards, the field
values afterwards, whether the blocking alert was raised, and the notification
round performed by `addProject` (empty when no project was added). -/
structure SubmitOutcome where
  state : ProjectState
  fields : FormFields
  alerted : Bool
  notifications : List (ListenerId × List Project)
deriving DecidableEq, Repr

/-- `ProjectInput.submitHandler`: fetches the validated user input; when it is
a tuple, calls `projectState.addProject(title, desc, people)` and then
`clearInput()`; otherwise (the alert branch of `fetchUserInput`) nothing
changes. -/
def submitHandler (s : ProjectState) (f : FormFields) (peopleNum : Int)
    (rnd : String) : SubmitOutcome :=
  match fetchUserInput f peopleNum with
  | some (title, desc, people) =>
      let r := addProject s rnd title desc people
      { state := r.1, fields := clearInput f, alerted := false,
        notifications := r.2 }
  | none =>
      { state := s, fields := f, alerted := true, notifications := [] }

/-! ## Reachable store states -/

/-- The store states reachable through the core's operations, starting from
the state built by the private constructor: `addProject` (with any generated
id), `addListener`, and the drop handler (which only observes the transferred
identifier). -/
inductive Reachable : ProjectState → Prop where
  | init : Reachable {}
  | step_add (s : ProjectState) (rnd title description : String)
      (numOfPeople : Int) : Reachable s →
      Reachable (addProject s rnd title description numOfPeople).1
  | step_listen (s : ProjectState) (l : ListenerId) : Reachable s →
      Reachable (addListener s l)
  | step_drop (s : ProjectState) (transferred : String) : Reachable s →
      Reachable (dropHandler s transferred).1

/-- A batch of `addProject` calls: each entry is `(rnd, title, description,
people)`. -/
def addProjects (s : ProjectState) :
    List (String × String × String × Int) → ProjectState
  | [] => s
  | (rnd, title, description, numOfPeople) :: rest =>
      addProjects (addProject s rnd title description numOfPeople).1 rest

/-- The `type` of a `ProjectLists` column: `"active" | "finished"`. -/
inductive ListKind where
  | active
  | finished
deriving DecidableEq, Repr

/-- The filter the `ProjectLists` listener applies to a notified snapshot
before rendering: keep the projects whose status matches the column. -/
def filterProjects (kind : ListKind) (projects : List Project) : List Project :=
  projects.filter (fun item =>
    match kind with
    | ListKind.active => item.status == ProjectStatus.Active
    | ListKind.finished => item.status == ProjectStatus.Finished)

/-! ## Heap-level model of `addProject` (array identity)

`this.projects.slice()` hands each listener a fresh array.  To state that the
snapshot is a defensive copy — mutating it does not change the store's
internal array — array identity must be observable, so this refinement models
JS arrays of projects as cells of a heap addressed by `Nat` references. -/

/-- A heap of project arrays; a reference is an index into the cell list. -/
abbrev Heap := List (List Project)

/-- Dereference: the array held at `r` (out-of-range reads give `[]`; all
references in use are in range). -/
def readRef (heap : Heap) (r : Nat) : List Project :=
  heap.getD r []

/-- In-place mutation of the array at `r`. -/
def writeRef (heap : Heap) (r : Nat) (v : List Project) : Heap :=
  heap.set r v

/-- Allocation of a fresh array (what `slice()` does): appends a new cell and
returns its reference. -/
def allocRef (heap : Heap) (v : List Project) : Heap × Nat :=
  (heap ++ [v], heap.length)

/-- The store at heap level: `this.projects` is a reference to a heap cell. -/
structure HProjectState where
  heap : Heap
  projectsRef : Nat
  listeners : List ListenerId

/-- The notification loop of `addProject`: for each listener in order, a fresh
copy of the current `this.projects` array is allocated (`slice()`) and passed
to the listener.  Returns the heap afterwards and the `(listener, snapshot
reference)` calls made. -/
def notifySlices : List ListenerId → Heap → Nat → Heap × List (ListenerId × Nat)
  | [], heap, _ => (heap, [])
  | l :: ls, heap, pr =>
      let a := allocRef heap (readRef heap pr)
      let rest := notifySlices ls a.1 pr
      (rest.1, (l, a.2) :: rest.2)

/-- `ProjectState.addProject` at heap level: push the new `Active` project
onto the array behind `projectsRef`, then run the notification loop. -/
def addProjectH (s : HProjectState) (rnd title description : String)
    (numOfPeople : Int) : HProjectState × List (ListenerId × Nat) :=
  let newProject : Project :=
    { id := rnd, title := title, description := description,
      people := numOfPeople, status := ProjectStatus.Active }
  let heap1 := writeRef s.heap s.projectsRef
    (readRef s.heap s.projectsRef ++ [newProject])
  let r := notifySlices s.listeners heap1 s.projectsRef
  ({ heap := r.1, projectsRef := s.projectsRef, listeners := s.listeners },
   r.2)

/-! ## Claim theorems -/

/-- C3: for every numeric value and a rule carrying both `min` and `max`,
`validateForm` passes the min check exactly when the value is strictly greater
than `min` and the max check exactly when it is strictly less than `max`, so
boundary values are rejected; in particular
`validate({value:5, min:0, max:5})` returns `false`. -/
theorem validateForm_min_max_strict :
    (∀ (v mn mx : Int),
      validateForm { value := Value.num v, min := some mn, max := some mx }
        = (decide (v > mn) && decide (v < mx))) ∧
    validateForm { value := Value.num 5, min := some 0, max := some 5 }
      = false := by
  refine ⟨fun v mn mx => ?_, by decide⟩
  simp [validateForm]

/-- C4: for every string value, the `maxLength` check of `validateForm`
passes exactly when the string's length is strictly GREATER than the bound —
the same strict `>` comparison as the `minLength` check — i.e. it is inverted
relative to bounding the length from above. -/
theorem validateForm_maxLength_inverted :
    ∀ (s : String) (bound : Int),
      validateForm { value := Value.str s, maxLength := some bound }
          = decide ((s.length : Int) > bound) ∧
      validateForm { value := Value.str s, minLength := some bound }
          = decide ((s.length : Int) > bound) := by
  intro s bound
  constructor <;> simp [validateForm]

/-- C9: the drag-start handler writes exactly the dragged project's id as the
"text/plain" payload of the event's data transfer and sets the allowed drag
effect to "move". -/
theorem dragStartHandler_payload (project : Project) (dt : DataTransfer) :
    getData (dragStartHandler project dt) "text/plain" = project.id ∧
    (dragStartHandler project dt).effectAllowed = "move" := by
  constructor
  · simp [getData, dragStartHandler, setData, List.find?]
  · rfl

/-- C10: registering the same callback twice makes every subsequent
`addProject` notification round invoke it twice — once per registration: the
number of calls it receives is its prior registration count plus two. -/
theorem addListener_duplicate_notifies_twice (s : ProjectState)
    (l : ListenerId) (rnd title description : String) (numOfPeople : Int) :
    (((addProject (addListener (addListener s l) l) rnd title description
        numOfPeople).2).map Prod.fst).count l
      = s.listeners.count l + 2 := by
  simp [addProject, addListener, List.count_append, Function.comp_def]

/-- C6: `getInstance` is a singleton accessor: a second call returns the same
instance and leaves the static cell unchanged, and a project added through
the reference returned by the second call is present in the resulting
sequence (which, the references being identical, is the sequence observed
through the first reference). -/
theorem getInstance_singleton (g : Option ProjectState)
    (rnd title description : String) (numOfPeople : Int) :
    (getInstance (getInstance g).2).1 = (getInstance g).1 ∧
    (getInstance (getInstance g).2).2 = (getInstance g).2 ∧
    (⟨rnd, title, description, numOfPeople, ProjectStatus.Active⟩ : Project)
      ∈ (addProject (getInstance (getInstance g).2).1 rnd title description
          numOfPeople).1.projects ∧
    (addProject (getInstance (getInstance g).2).1 rnd title description
        numOfPeople).1
      = (addProject (getInstance g).1 rnd title description numOfPeople).1 := by
  cases g <;> simp [getInstance, addProject]

/-- C1: for every valid input triple (title passes its required rule,
description its required + minLength 5 rule, people its required + min 0 +
max 5 rule), `addProject` grows the project sequence by exactly one, the
appended project has status `Active`, and the notification round calls every
registered listener, in registration order, with the full new sequence, whose
last element is the new project. -/
theorem addProject_valid_appends_and_notifies (s : ProjectState)
    (rnd title description : String) (numOfPeople : Int)
    (_ht : validateForm { value := Value.str title, required := true } = true)
    (_hd : validateForm { value := Value.str description, required := true, minLength := some 5 } = true)
    (_hp : validateForm { value := Value.num numOfPeople, required := true, min := some 0, max := some 5 } = true) :
    (addProject s rnd title description numOfPeople).1.projects.length
        = s.projects.length + 1 ∧
    (addProject s rnd title description numOfPeople).1.projects.getLast?
        = some ⟨rnd, title, description, numOfPeople, ProjectStatus.Active⟩ ∧
    (⟨rnd, title, description, numOfPeople, ProjectStatus.Active⟩ : Project).status
        = ProjectStatus.Active ∧
    (addProject s rnd title description numOfPeople).2
        = s.listeners.map (fun listenerFunction => (listenerFunction,
            s.projects ++ [⟨rnd, title, description, numOfPeople, ProjectStatus.Active⟩])) := by
  refine ⟨?_, ?_, rfl, rfl⟩ <;> simp [addProject, List.getLast?_concat]

/-- Witness for C1 at a concrete valid submission, on a store with two
registered listeners. -/
theorem addProject_valid_witness :
    (addProject ⟨[], [5, 7]⟩ "0.123" "Learn" "abcdef" 3).1.projects.length
        = (⟨[], [5, 7]⟩ : ProjectState).projects.length + 1 ∧
    (addProject ⟨[], [5, 7]⟩ "0.123" "Learn" "abcdef" 3).1.projects.getLast?
        = some ⟨"0.123", "Learn", "abcdef", 3, ProjectStatus.Active⟩ ∧
    (⟨"0.123", "Learn", "abcdef", 3, ProjectStatus.Active⟩ : Project).status
        = ProjectStatus.Active ∧
    (addProject ⟨[], [5, 7]⟩ "0.123" "Learn" "abcdef" 3).2
        = (⟨[], [5, 7]⟩ : ProjectState).listeners.map (fun listenerFunction => (listenerFunction,
            (⟨[], [5, 7]⟩ : ProjectState).projects ++ [⟨"0.123", "Learn", "abcdef", 3, ProjectStatus.Active⟩])) :=
  addProject_valid_appends_and_notifies ⟨[], [5, 7]⟩ "0.123" "Learn" "abcdef" 3
    (by decide) (by decide) (by decide)

/-- C2: a form submission is all-or-nothing.  When any of the three field
validations fails, the alert is raised, the store is unchanged, no listener
is called and the fields keep their values; when all three pass, the store
gains the project via `addProject` (with its notification round) and all
three fields are cleared. -/
theorem submitHandler_all_or_nothing (s : ProjectState) (f : FormFields)
    (peopleNum : Int) (rnd : String) :
    ((validateForm { value := Value.str f.title, required := true }
        && validateForm { value := Value.str f.description, required := true, minLength := some 5 }
        && validateForm { value := Value.num peopleNum, required := true, min := some 0, max := some 5 }) = false →
      submitHandler s f peopleNum rnd
        = { state := s, fields := f, alerted := true, notifications := [] }) ∧
    ((validateForm { value := Value.str f.title, required := true }
        && validateForm { value := Value.str f.description, required := true, minLength := some 5 }
        && validateForm { value := Value.num peopleNum, required := true, min := some 0, max := some 5 }) = true →
      submitHandler s f peopleNum rnd
        = { state := (addProject s rnd f.title f.description peopleNum).1,
            fields := { title := "", description := "", people := "" },
            alerted := false,
            notifications := (addProject s rnd f.title f.description peopleNum).2 }) := by
  cases h1 : validateForm { value := Value.str f.title, required := true } <;>
    cases h2 : validateForm { value := Value.str f.description, required := true, minLength := some 5 } <;>
      cases h3 : validateForm { value := Value.num peopleNum, required := true, min := some 0, max := some 5 } <;>
        simp_all [submitHandler, fetchUserInput, clearInput]

/-- Witness for C2: the spec's failing scenario — description "abcd" (4
characters, below the minimum) — raises the alert and mutates nothing. -/
theorem submitHandler_witness :
    submitHandler ⟨[], [0]⟩ ⟨"Learn", "abcd", "3"⟩ 3 "0.5"
      = { state := ⟨[], [0]⟩, fields := ⟨"Learn", "abcd", "3"⟩,
          alerted := true, notifications := [] } :=
  (submitHandler_all_or_nothing ⟨[], [0]⟩ ⟨"Learn", "abcd", "3"⟩ 3 "0.5").1
    (by decide)

/-- C5: in every store state reachable through the core's operations, every
project has status `Active`, and the finished column's filtered list is
empty. -/
theorem reachable_all_active (s : ProjectState) (h : Reachable s) :
    s.projects.all (fun p => p.status == ProjectStatus.Active) = true ∧
    filterProjects ListKind.finished s.projects = [] := by
  induction h with
  | init => exact ⟨rfl, rfl⟩
  | step_add s rnd title description numOfPeople _ ih =>
      refine ⟨?_, ?_⟩
      · simp [addProject, List.all_append, ih.1]
      · have h2 := ih.2
        simp only [filterProjects] at h2 ⊢
        simp [addProject, List.filter_append, h2]
  | step_listen s l _ ih => simpa [addListener] using ih
  | step_drop s transferred _ ih => simpa [dropHandler] using ih

/-- Witness for C5: the finished column is empty after a concrete
`addProject` on the initial store. -/
theorem reachable_all_active_witness :
    filterProjects ListKind.finished
      (addProject ⟨[], []⟩ "0.1" "Learn" "abcdef" 3).1.projects = [] :=
  (reachable_all_active _
    (Reachable.step_add ⟨[], []⟩ "0.1" "Learn" "abcdef" 3 Reachable.init)).2

/-- C8 counterexample: the generated id is `Math.random().toString()`, and
nothing prevents two draws from colliding.  Two `addProject` calls whose
random draws both yield "0.5" leave the store holding two distinct projects
with equal ids. -/
theorem addProject_id_collision :
    (addProjects ⟨[], []⟩ [("0.5", "a", "ddddd", 1), ("0.5", "b", "eeeee", 2)]).projects[0]?
        = some ⟨"0.5", "a", "ddddd", 1, ProjectStatus.Active⟩ ∧
    (addProjects ⟨[], []⟩ [("0.5", "a", "ddddd", 1), ("0.5", "b", "eeeee", 2)]).projects[1]?
        = some ⟨"0.5", "b", "eeeee", 2, ProjectStatus.Active⟩ ∧
    (⟨"0.5", "a", "ddddd", 1, ProjectStatus.Active⟩ : Project)
        ≠ ⟨"0.5", "b", "eeeee", 2, ProjectStatus.Active⟩ ∧
    Project.id ⟨"0.5", "a", "ddddd", 1, ProjectStatus.Active⟩
        = Project.id ⟨"0.5", "b", "eeeee", 2, ProjectStatus.Active⟩ :=
  ⟨rfl, rfl, by decide, rfl⟩

/-- The projects accumulated by a batch of `addProject` calls, in call
order. -/
theorem addProjects_projects (inputs : List (String × String × String × Int))
    (s : ProjectState) :
    (addProjects s inputs).projects
      = s.projects ++ inputs.map (fun i =>
          (⟨i.1, i.2.1, i.2.2.1, i.2.2.2, ProjectStatus.Active⟩ : Project)) := by
  induction inputs generalizing s with
  | nil => simp [addProjects]
  | cons i rest ih =>
      obtain ⟨rnd, title, description, numOfPeople⟩ := i
      simp [addProjects, addProject, ih]

/-- C8 amended: provided the strings drawn from `Math.random().toString()`
across the `addProject` calls are pairwise distinct, the ids of the projects
in the store are pairwise distinct. -/
theorem addProject_ids_unique_of_distinct_rnd
    (inputs : List (String × String × String × Int))
    (h : (inputs.map (fun i => i.1)).Pairwise (· ≠ ·)) :
    ((addProjects ⟨[], []⟩ inputs).projects.map Project.id).Pairwise
      (· ≠ ·) := by
  rw [addProjects_projects]
  simpa [List.map_map, Function.comp_def] using h

/-- Witness for the amended C8 at two concrete calls with distinct draws. -/
theorem addProject_ids_unique_witness :
    ((addProjects ⟨[], []⟩
        [("0.1", "a", "ddddd", 1), ("0.2", "b", "eeeee", 2)]).projects.map
      Project.id).Pairwise (· ≠ ·) :=
  addProject_ids_unique_of_distinct_rnd
    [("0.1", "a", "ddddd", 1), ("0.2", "b", "eeeee", 2)] (by decide)

/-- Reading below the old length is unchanged by an append. -/
theorem readRef_append (heap : Heap) (v : List Project) (r : Nat)
    (h : r < heap.length) : readRef (heap ++ [v]) r = readRef heap r := by
  simp [readRef, List.getD_eq_getElem?_getD, List.getElem?_append_left h]

/-- Reading the appended cell gives the appended value. -/
theorem readRef_append_self (heap : Heap) (v : List Project) :
    readRef (heap ++ [v]) heap.length = v := by
  simp [readRef, List.getD_eq_getElem?_getD,
    List.getElem?_append_right (Nat.le_refl heap.length)]

/-- Writing one cell leaves every other cell unchanged. -/
theorem readRef_writeRef_ne (heap : Heap) (r r' : Nat) (v : List Project)
    (h : r ≠ r') : readRef (writeRef heap r v) r' = readRef heap r' := by
  simp [readRef, writeRef, List.getD_eq_getElem?_getD, List.getElem?_set_ne h]

/-- One step of the notification loop, unfolded. -/
theorem notifySlices_cons (l : ListenerId) (ls : List ListenerId)
    (heap : Heap) (pr : Nat) :
    notifySlices (l :: ls) heap pr =
      ((notifySlices ls (heap ++ [readRef heap pr]) pr).1,
       (l, heap.length) :: (notifySlices ls (heap ++ [readRef heap pr]) pr).2)
    := rfl

/-- The notification loop only allocates: the heap grows, existing cells are
untouched, and every snapshot reference is a fresh cell (at or above the old
length) holding the current contents of the projects cell. -/
theorem notifySlices_spec (ls : List ListenerId) (pr : Nat) :
    ∀ heap : Heap, pr < heap.length →
      heap.length ≤ (notifySlices ls heap pr).1.length ∧
      (∀ r, r < heap.length →
        readRef (notifySlices ls heap pr).1 r = readRef heap r) ∧
      (∀ e ∈ (notifySlices ls heap pr).2,
        heap.length ≤ e.2 ∧ e.2 < (notifySlices ls heap pr).1.length ∧
        readRef (notifySlices ls heap pr).1 e.2 = readRef heap pr) := by
  induction ls with
  | nil =>
      intro heap _
      exact ⟨Nat.le_refl _, fun r _ => rfl, by simp [notifySlices]⟩
  | cons l ls ih =>
      intro heap hpr
      have hpr1 : pr < (heap ++ [readRef heap pr]).length := by
        simp
        omega
      obtain ⟨ih1, ih2, ih3⟩ := ih (heap ++ [readRef heap pr]) hpr1
      have hlen1 : (heap ++ [readRef heap pr]).length = heap.length + 1 := by
        simp
      rw [notifySlices_cons]
      dsimp only
      refine ⟨by omega, ?_, ?_⟩
      · intro r hr
        rw [ih2 r (by omega), readRef_append heap _ r hr]
      · intro e he
        rcases List.mem_cons.mp he with he | he
        · subst he
          refine ⟨Nat.le_refl _, by omega, ?_⟩
          rw [ih2 heap.length (by omega), readRef_append_self]
        · obtain ⟨h1, h2, h3⟩ := ih3 e he
          exact ⟨by omega, by omega, by rw [h3, readRef_append heap _ pr hpr]⟩

/-- C7: every snapshot reference handed to a listener by `addProject` is a
fresh array, distinct from the store's internal projects array; it holds the
same contents, and an arbitrary mutation of the snapshot leaves the internal
array unchanged. -/
theorem addProjectH_snapshot_defensive (s : HProjectState)
    (rnd title description : String) (numOfPeople : Int)
    (l : ListenerId) (snapRef : Nat) (v : List Project)
    (hpr : s.projectsRef < s.heap.length)
    (hmem : (l, snapRef) ∈ (addProjectH s rnd title description numOfPeople).2) :
    snapRef ≠ s.projectsRef ∧
    readRef (addProjectH s rnd title description numOfPeople).1.heap snapRef
      = readRef (addProjectH s rnd title description numOfPeople).1.heap
          s.projectsRef ∧
    readRef (writeRef (addProjectH s rnd title description numOfPeople).1.heap
        snapRef v) s.projectsRef
      = readRef (addProjectH s rnd title description numOfPeople).1.heap
          s.projectsRef := by
  have hpr1 : s.projectsRef <
      (writeRef s.heap s.projectsRef
        (readRef s.heap s.projectsRef
          ++ [⟨rnd, title, description, numOfPeople,
                ProjectStatus.Active⟩])).length := by
    simp [writeRef]
    omega
  obtain ⟨sp1, sp2, sp3⟩ := notifySlices_spec s.listeners s.projectsRef _ hpr1
  simp only [addProjectH] at hmem ⊢
  obtain ⟨m1, m2, m3⟩ := sp3 (l, snapRef) hmem
  have hne : snapRef ≠ s.projectsRef := by
    simp [writeRef] at m1
    omega
  refine ⟨hne, ?_, ?_⟩
  · rw [m3, sp2 s.projectsRef hpr1]
  · rw [readRef_writeRef_ne _ _ _ _ hne]

/-- Witness for C7 on a concrete store with one listener: the snapshot cell
(reference 1) is distinct from the projects cell (reference 0), holds the
same contents, and overwriting it leaves the projects cell unchanged. -/
theorem addProjectH_snapshot_witness :
    (1 : Nat) ≠ 0 ∧
    readRef (addProjectH ⟨[[]], 0, [7]⟩ "0.1" "Learn" "abcdef" 3).1.heap 1
      = readRef (addProjectH ⟨[[]], 0, [7]⟩ "0.1" "Learn" "abcdef" 3).1.heap 0 ∧
    readRef (writeRef
        (addProjectH ⟨[[]], 0, [7]⟩ "0.1" "Learn" "abcdef" 3).1.heap 1 []) 0
      = readRef (addProjectH ⟨[[]], 0, [7]⟩ "0.1" "Learn" "abcdef" 3).1.heap 0 :=
  addProjectH_snapshot_defensive ⟨[[]], 0, [7]⟩ "0.1" "Learn" "abcdef" 3 7 1 []
    (by decide) (by decide)

end DragIT
